import Mathlib

/-!
# Junction core — shallow embedding and verification

This file embeds the event-collection core of the Junction repository
(`packages/core/src/collector.ts`, the consent manager `consent.ts`, and the
validator `validation.ts`) into Lean 4 and proves/refutes the frozen claims
about it.

Modelling conventions:
* TS functions that may throw are embedded as functions into `Except Err _`;
  a promise that may reject (`send`) is embedded as a function returning its
  eventual outcome (`sendResult`).
* The collector's side effects — calls made into destinations and events
  emitted on the collector's emitter — are returned as explicit output lists
  (`DestCall`, `Emitted`) alongside the successor state.
* Time (`Date.now()`, `setTimeout`, `setInterval`) is modelled by an explicit
  `now : Nat` clock (milliseconds) carried in the state; the `setTimeout`
  flush timer is a stored deadline, and the runtime firing the timeout
  callback is the `fireFlushTimer` transition.
* JS objects with open string keys (`ConsentState`, event properties, traits)
  are association lists; object spread `{...a, ...b}` is `mergeState`, whose
  lookup gives the later spread precedence.
* `Destination.init`/`teardown`/`runtime` and `DestinationEntry.config`/
  `enabled` are not modelled: no claim touches initialization, teardown or
  runtime affinity, `config` is passed through opaquely to `send` (its effect
  is inside `sendResult`), and `enabled === false` entries are filtered out
  before registration, so the `destinations` list holds registered entries.
-/

namespace Junction

/-- Consent category names are open strings (`"necessary"`, `"analytics"`, …). -/
abbrev ConsentCategory := String

/-- Opaque error value (a thrown JS exception or promise rejection reason). -/
abbrev Err := String

/-- Opaque payload produced by a destination's `transform`. -/
abbrev Payload := String

/-- Event properties: an object with string keys, modelled as an association
list (values abstracted to strings). -/
abbrev Properties := List (String × String)

/-- `UserIdentity` from `types.ts`: `{anonymousId, userId?, traits?}`. -/
structure UserIdentity where
  anonymousId : String
  userId : Option String := none
  traits : List (String × String) := []
deriving DecidableEq, Repr

/-- `JctEvent` from `types.ts`. `id`/`timestamp` are drawn from the model
clock and a fresh-id counter. -/
structure JctEvent where
  entity : String
  action : String
  properties : Properties
  context : List (String × String)
  user : UserIdentity
  timestamp : Nat
  id : Nat
  version : String
  source : String
deriving DecidableEq, Repr

/-- `ConsentState`: mapping category → granted/denied; an absent key is the
pending (`undefined`) tri-state. Later entries are shadowed by earlier ones
(see `mergeState`). -/
abbrev ConsentState := List (String × Bool)

/-- `state[category]` on the consent object: `some b` when the key is present,
`none` for `undefined`. -/
def lookupCat (s : ConsentState) (c : String) : Option Bool :=
  (s.find? (fun kv => kv.1 == c)).map (fun kv => kv.2)

/-- Object spread `{...state, ...update}`: keys of `update` win. With
head-first lookup, prepending the update realizes that precedence. -/
def mergeState (s update : ConsentState) : ConsentState :=
  update ++ s

/-- `QueuedEvent` from `consent.ts`: `{event, queuedAt}`. -/
structure QueuedEvent where
  event : JctEvent
  queuedAt : Nat
deriving DecidableEq, Repr

/-- The consent manager's mutable state (`consent.ts`): current state, the
queue, and the configured `queueTimeout` (ms). -/
structure ConsentMgr where
  state : ConsentState
  queue : List QueuedEvent
  queueTimeout : Nat
deriving Repr

/-- `isAllowed` from `consent.ts`: empty or all-`"necessary"` requirement
lists are always allowed; otherwise OR-semantics over explicit `true`. -/
def isAllowed (s : ConsentState) (required : List ConsentCategory) : Bool :=
  if required.isEmpty || required.all (fun c => c == "necessary") then
    true
  else
    required.any (fun category => lookupCat s category == some true)

/-- `isPending` from `consent.ts`: some listed category is `undefined`. -/
def isPending (s : ConsentState) (categories : List ConsentCategory) : Bool :=
  categories.any (fun cat => lookupCat s cat == none)

/-- `enqueue` from `consent.ts`: no-op when `queueTimeout === 0`, else push
`{event, queuedAt: Date.now()}`. -/
def mgrEnqueue (m : ConsentMgr) (e : JctEvent) (now : Nat) : ConsentMgr :=
  if m.queueTimeout == 0 then m
  else { m with queue := m.queue ++ [⟨e, now⟩] }

/-- The body of the `setInterval` sweep in `createConsentManager`: keep
exactly the entries with `now - queuedAt < queueTimeout`. -/
def sweepQueue (m : ConsentMgr) (now : Nat) : ConsentMgr :=
  { m with queue := m.queue.filter (fun item => now - item.queuedAt < m.queueTimeout) }

/-- The sweep interval chosen in `createConsentManager` when
`queueTimeout > 0`: `Math.min(queueTimeout, 30_000)`. -/
def cleanupIntervalMs (queueTimeout : Nat) : Nat :=
  min queueTimeout 30000

/-- Whether the consent manager arms the sweep interval at construction:
only when `config.queueTimeout > 0`. -/
def sweepTimerArmed (queueTimeout : Nat) : Bool :=
  0 < queueTimeout

-- ── Validator (`validation.ts`) ─────────────────────────────────

/-- Outcome of running `schema.safeParse(event.properties)` inside
`validate`'s try block: success (with possibly-coerced output), a Zod
failure, or the schema implementation itself throwing. -/
inductive SchemaOutcome where
  | success (data : Properties)
  | failure (error : Err)
  | thrown (e : Err)

/-- `EventContract.mode`. -/
inductive ContractMode where
  | strict
  | lenient
deriving DecidableEq, Repr

/-- `EventContract` from `types.ts` (schema embedded as its `safeParse`). -/
structure EventContract where
  entity : String
  action : String
  version : String
  mode : ContractMode
  schema : Properties → SchemaOutcome

/-- The validator's contract registry: `Map` keyed by `"entity:action"`,
as an insertion-ordered association list. -/
abbrev ContractRegistry := List (String × EventContract)

/-- `key(entity, action)` from `validation.ts`. -/
def contractKey (entity action : String) : String :=
  entity ++ ":" ++ action

/-- `Map.get` on the registry. -/
def registryGet (v : ContractRegistry) (k : String) : Option EventContract :=
  (v.find? (fun kv => kv.1 == k)).map (fun kv => kv.2)

/-- `Map.set` on the registry: replace in place if the key exists, else
append (insertion order preserved). -/
def registrySet (v : ContractRegistry) (k : String) (c : EventContract) :
    ContractRegistry :=
  if v.any (fun kv => kv.1 == k) then
    v.map (fun kv => if kv.1 == k then (k, c) else kv)
  else
    v ++ [(k, c)]

/-- `register` from `validation.ts`. -/
def registerContract (v : ContractRegistry) (c : EventContract) : ContractRegistry :=
  registrySet v (contractKey c.entity c.action) c

/-- `findContract`: exact `entity:action` match, falling back to the
`entity:*` wildcard. -/
def findContract (v : ContractRegistry) (entity action : String) :
    Option EventContract :=
  (registryGet v (contractKey entity action)).orElse
    (fun _ => registryGet v (contractKey entity "*"))

/-- `ValidationResult` from `types.ts`. -/
structure ValidationResult where
  valid : Bool
  event : JctEvent
  errors : Option Err := none
  coerced : Bool := false

/-- `validate` from `validation.ts`. -/
def validate (v : ContractRegistry) (event : JctEvent) : ValidationResult :=
  match findContract v event.entity event.action with
  | none => { valid := true, event := event }
  | some contract =>
    match contract.schema event.properties with
    | .success data =>
        { valid := true
          event := { event with properties := data }
          coerced := data != event.properties }
    | .failure error =>
        match contract.mode with
        | .strict => { valid := false, event := event, errors := some error }
        | .lenient => { valid := true, event := event, errors := some error }
    | .thrown _ => { valid := true, event := event }

-- ── Destinations ────────────────────────────────────────────────

/-- The `Destination` capability object (`types.ts`), restricted to the
members dispatch and the consent-change handler use. `transform` may throw
(`Except.error`); `sendResult` is the eventual outcome of the promise
returned by `send` (`Except.error` = rejection); `onConsent` is optional and
may throw. -/
structure Destination where
  name : String
  version : String
  consent : List ConsentCategory
  transform : JctEvent → Except Err (Option Payload)
  sendResult : Payload → Except Err Unit
  onConsent : Option (ConsentState → Except Err Unit) := none

/-- `DestinationEntry`: the registered destination plus the optional
per-entry consent override (`entry.consent`). -/
structure DestinationEntry where
  destination : Destination
  consentOverride : Option (List ConsentCategory) := none

/-- `entry.consent ?? entry.destination.consent` in `dispatchToDestinations`. -/
def requiredConsentOf (entry : DestinationEntry) : List ConsentCategory :=
  entry.consentOverride.getD entry.destination.consent

/-- A call made into a destination during dispatch / consent change. -/
inductive DestCall where
  | transformCall (dest : String) (event : JctEvent)
  | sendCall (dest : String) (payload : Payload)
  | onConsentCall (dest : String) (state : ConsentState)
deriving DecidableEq, Repr

/-- The destination a call was made to. -/
def DestCall.destName : DestCall → String
  | .transformCall d _ => d
  | .sendCall d _ => d
  | .onConsentCall d _ => d

/-- An event emitted on the collector's emitter (`emit(type, payload)`). -/
inductive Emitted where
  | consentEv (state : ConsentState)
  | destinationError (dest : String) (event : Option JctEvent)
  | destinationSend (dest : String) (event : JctEvent)
  | eventEv (event : JctEvent)
  | eventValid (event : JctEvent)
  | eventInvalid (event : JctEvent) (errors : Option Err)
  | queueFlush (count : Nat)
deriving DecidableEq, Repr

-- ── Collector state (`collector.ts`) ────────────────────────────

/-- The collector's mutable state: user identity, registered destinations
(the name-keyed `Map`, in registration order), the consent manager, the
contract registry, the event buffer, the `setTimeout` flush deadline, buffer
configuration, a fresh-id counter, the merged global/resolved context, the
event source tag, and the model clock (ms). -/
structure CollectorState where
  user : UserIdentity
  destinations : List DestinationEntry
  mgr : ConsentMgr
  validator : ContractRegistry
  buffer : List JctEvent
  flushDeadline : Option Nat
  maxSize : Nat
  maxWait : Nat
  nextId : Nat
  context : List (String × String)
  source : String
  now : Nat

/-- Result of one collector operation: successor state, the calls made into
destinations, and the events emitted on the collector emitter, in order. -/
structure StepOut where
  st : CollectorState
  calls : List DestCall
  emits : List Emitted

/-- Output of one iteration of the `dispatchToDestinations` loop body for a
single entry: the destination calls, the emitted events, and whether the
event is passed to `consent.enqueue` (the pending-blocked branch). -/
structure EntryOut where
  calls : List DestCall
  emits : List Emitted
  pend : Bool

/-- Output of the dispatch loop over a suffix of the destination list:
the threaded consent manager, the calls made, and the events emitted. -/
structure LoopOut where
  mgr : ConsentMgr
  calls : List DestCall
  emits : List Emitted

/-- One iteration of the loop in `dispatchToDestinations` (`collector.ts`),
for consent state `cs`: consent check → queue-or-drop, or transform (throw
caught, reported) → skip on `null` → fire-and-forget send (rejection
reported) and `destination:send`. -/
def dispatchEntry (cs : ConsentState) (entry : DestinationEntry) (e : JctEvent) :
    EntryOut :=
  if isAllowed cs (requiredConsentOf entry) then
    match entry.destination.transform e with
    | .error _err =>
        { calls := [.transformCall entry.destination.name e]
          emits := [.destinationError entry.destination.name (some e)]
          pend := false }
    | .ok none =>
        { calls := [.transformCall entry.destination.name e]
          emits := []
          pend := false }
    | .ok (some payload) =>
        { calls := [.transformCall entry.destination.name e,
                    .sendCall entry.destination.name payload]
          emits := [.destinationSend entry.destination.name e] ++
            (match entry.destination.sendResult payload with
             | .error _err => [.destinationError entry.destination.name (some e)]
             | .ok _ => [])
          pend := false }
  else
    { calls := []
      emits := []
      pend := isPending cs (requiredConsentOf entry) }

/-- The `for (const [name, entry] of destinations)` loop of
`dispatchToDestinations`, threading the consent manager (whose `state` the
loop only reads and whose `queue` grows via `enqueue`). -/
def dispatchLoop (now : Nat) (e : JctEvent) (m : ConsentMgr) :
    List DestinationEntry → LoopOut
  | [] => { mgr := m, calls := [], emits := [] }
  | entry :: rest =>
      let out := dispatchEntry m.state entry e
      let r := dispatchLoop now e
        (if out.pend then mgrEnqueue m e now else m) rest
      { mgr := r.mgr, calls := out.calls ++ r.calls, emits := out.emits ++ r.emits }

/-- `dispatchToDestinations(event)` from `collector.ts`. -/
def dispatchToDestinations (st : CollectorState) (e : JctEvent) : StepOut :=
  { st := { st with mgr := (dispatchLoop st.now e st.mgr st.destinations).mgr }
    calls := (dispatchLoop st.now e st.mgr st.destinations).calls
    emits := (dispatchLoop st.now e st.mgr st.destinations).emits }

-- ── Buffering and track (`collector.ts`) ────────────────────────

/-- `buildEvent(entity, action, properties)`: fresh id, current timestamp,
resolved context, current user snapshot. -/
def buildEvent (st : CollectorState) (entity action : String)
    (properties : Properties) : JctEvent :=
  { entity := entity
    action := action
    properties := properties
    context := st.context
    user := st.user
    timestamp := st.now
    id := st.nextId
    version := "1.0.0"
    source := st.source }

/-- `scheduleFlush`: arm the `setTimeout(maxWait)` only when no timer is
already armed (the timer is never reset by subsequent calls). -/
def scheduleFlush (st : CollectorState) : CollectorState :=
  match st.flushDeadline with
  | some _ => st
  | none => { st with flushDeadline := some (st.now + st.maxWait) }

/-- The `for (const event of events) dispatchToDestinations(event)` loop of
`flushBuffer`, over the swapped-out buffer contents. -/
def dispatchAll (st : CollectorState) : List JctEvent → StepOut
  | [] => { st := st, calls := [], emits := [] }
  | e :: rest =>
      let d := dispatchToDestinations st e
      let r := dispatchAll d.st rest
      { st := r.st, calls := d.calls ++ r.calls, emits := d.emits ++ r.emits }

/-- `flushBuffer` from `collector.ts`: clear the timer, swap-and-clear the
buffer, dispatch each event. -/
def flushBuffer (st : CollectorState) : StepOut :=
  let st1 := { st with flushDeadline := none }
  if st1.buffer.isEmpty then { st := st1, calls := [], emits := [] }
  else
    let events := st1.buffer
    let st2 := { st1 with buffer := [] }
    dispatchAll st2 events

/-- The runtime invoking the armed `setTimeout` callback (which runs
`flushBuffer`). -/
def fireFlushTimer (st : CollectorState) : StepOut :=
  flushBuffer st

/-- `track(entity, action, properties)` from `collector.ts`: build, validate
(drop invalid with `event:invalid`), emit `event`/`event:valid`, buffer, and
flush on `maxSize` or arm the `maxWait` timer. -/
def track (st : CollectorState) (entity action : String)
    (properties : Properties) : StepOut :=
  let e := buildEvent st entity action properties
  let st0 := { st with nextId := st.nextId + 1 }
  let result := validate st0.validator e
  if result.valid then
    let preEmits := [Emitted.eventEv e, Emitted.eventValid e]
    let st1 := { st0 with buffer := st0.buffer ++ [result.event] }
    if st1.maxSize ≤ st1.buffer.length then
      let f := flushBuffer st1
      { st := f.st, calls := f.calls, emits := preEmits ++ f.emits }
    else
      { st := scheduleFlush st1, calls := [], emits := preEmits }
  else
    { st := st0, calls := [], emits := [Emitted.eventInvalid e result.errors] }

-- ── Consent change (`collector.ts` onChange handler) ────────────

/-- Output of the `onConsent` notification loop: the calls made and the
exception escaping the loop, if any. -/
structure OCOut where
  calls : List DestCall
  err : Option Err

/-- The `entry.destination.onConsent?.(state)` loop in the collector's
consent-change handler. There is no try/catch in the handler itself, so a
throwing `onConsent` aborts the loop (and the rest of the handler); `err`
is the escaping exception, if any. -/
def onConsentLoop (s : ConsentState) : List DestinationEntry → OCOut
  | [] => { calls := [], err := none }
  | entry :: rest =>
      match entry.destination.onConsent with
      | none => onConsentLoop s rest
      | some f =>
          match f s with
          | .ok _ =>
              { calls := .onConsentCall entry.destination.name s ::
                  (onConsentLoop s rest).calls
                err := (onConsentLoop s rest).err }
          | .error err =>
              { calls := [.onConsentCall entry.destination.name s]
                err := some err }

/-- The `for (const { event } of queued)` loop of the consent-change
handler: refresh the user snapshot, then re-dispatch. -/
def redispatch (st : CollectorState) : List QueuedEvent → StepOut
  | [] => { st := st, calls := [], emits := [] }
  | q :: rest =>
      let updatedEvent := { q.event with user := st.user }
      let d := dispatchToDestinations st updatedEvent
      let r := redispatch d.st rest
      { st := r.st, calls := d.calls ++ r.calls, emits := d.emits ++ r.emits }

/-- `collector.consent(state)`: `consent.setState` merges the update and
`notify` synchronously runs the collector's single `onChange` listener
inside try/catch. The listener emits `consent`, notifies every destination's
`onConsent` (uncaught in the handler — a throw escapes to `notify`'s
try/catch, skipping the rest of the handler), drains the queue, re-dispatches
each queued event with a refreshed user snapshot, and emits `queue:flush`. -/
def consentOp (st : CollectorState) (update : ConsentState) : StepOut :=
  let newState := mergeState st.mgr.state update
  let st1 := { st with mgr := { st.mgr with state := newState } }
  let oc := onConsentLoop newState st1.destinations
  match oc.err with
  | some _ => { st := st1, calls := oc.calls, emits := [Emitted.consentEv newState] }
  | none =>
      let queued := st1.mgr.queue
      let r := redispatch { st1 with mgr := { st1.mgr with queue := [] } } queued
      { st := r.st
        calls := oc.calls ++ r.calls
        emits := [Emitted.consentEv newState] ++ r.emits ++
          [Emitted.queueFlush queued.length] }

-- ── Derived observations ────────────────────────────────────────

/-- The pending-blocked branch of the dispatch loop: consent not allowed but
still pending, so the event is enqueued for this destination. -/
def pendingBlocked (cs : ConsentState) (entry : DestinationEntry) : Bool :=
  !isAllowed cs (requiredConsentOf entry) && isPending cs (requiredConsentOf entry)

/-- Number of `transform` calls a given destination received. -/
def countTransformsTo (name : String) (calls : List DestCall) : Nat :=
  calls.countP (fun c => match c with
    | .transformCall d _ => d == name
    | _ => false)

/-- Number of `send` calls a given destination received. -/
def countSendsTo (name : String) (calls : List DestCall) : Nat :=
  calls.countP (fun c => match c with
    | .sendCall d _ => d == name
    | _ => false)

-- ── Structural lemmas about the dispatch loop ───────────────────

theorem mgrEnqueue_state (m : ConsentMgr) (e : JctEvent) (t : Nat) :
    (mgrEnqueue m e t).state = m.state := by
  unfold mgrEnqueue; split <;> rfl

theorem mgrEnqueue_timeout (m : ConsentMgr) (e : JctEvent) (t : Nat) :
    (mgrEnqueue m e t).queueTimeout = m.queueTimeout := by
  unfold mgrEnqueue; split <;> rfl

theorem mgrEnqueue_push (m : ConsentMgr) (e : JctEvent) (t : Nat)
    (hT : m.queueTimeout ≠ 0) :
    mgrEnqueue m e t = { m with queue := m.queue ++ [⟨e, t⟩] } := by
  unfold mgrEnqueue
  rw [if_neg]
  simp [hT]

theorem dispatchLoop_mgr_state (now : Nat) (e : JctEvent) (m : ConsentMgr)
    (l : List DestinationEntry) : (dispatchLoop now e m l).mgr.state = m.state := by
  induction l generalizing m with
  | nil => rfl
  | cons entry rest ih =>
      simp only [dispatchLoop]
      by_cases hp : (dispatchEntry m.state entry e).pend = true
      · rw [if_pos hp, ih, mgrEnqueue_state]
      · rw [if_neg hp]; exact ih m

theorem dispatchLoop_mgr_timeout (now : Nat) (e : JctEvent) (m : ConsentMgr)
    (l : List DestinationEntry) :
    (dispatchLoop now e m l).mgr.queueTimeout = m.queueTimeout := by
  induction l generalizing m with
  | nil => rfl
  | cons entry rest ih =>
      simp only [dispatchLoop]
      by_cases hp : (dispatchEntry m.state entry e).pend = true
      · rw [if_pos hp, ih, mgrEnqueue_timeout]
      · rw [if_neg hp]; exact ih m

theorem dispatchLoop_calls (now : Nat) (e : JctEvent) (m : ConsentMgr)
    (l : List DestinationEntry) :
    (dispatchLoop now e m l).calls
      = l.flatMap (fun entry => (dispatchEntry m.state entry e).calls) := by
  induction l generalizing m with
  | nil => rfl
  | cons entry rest ih =>
      simp only [dispatchLoop, List.flatMap_cons]
      congr 1
      by_cases hp : (dispatchEntry m.state entry e).pend = true
      · rw [if_pos hp, ih]
        simp only [mgrEnqueue_state]
      · rw [if_neg hp]; exact ih m

theorem dispatchLoop_emits (now : Nat) (e : JctEvent) (m : ConsentMgr)
    (l : List DestinationEntry) :
    (dispatchLoop now e m l).emits
      = l.flatMap (fun entry => (dispatchEntry m.state entry e).emits) := by
  induction l generalizing m with
  | nil => rfl
  | cons entry rest ih =>
      simp only [dispatchLoop, List.flatMap_cons]
      congr 1
      by_cases hp : (dispatchEntry m.state entry e).pend = true
      · rw [if_pos hp, ih]
        simp only [mgrEnqueue_state]
      · rw [if_neg hp]; exact ih m

theorem dispatchEntry_pend (cs : ConsentState) (entry : DestinationEntry)
    (e : JctEvent) : (dispatchEntry cs entry e).pend = pendingBlocked cs entry := by
  unfold dispatchEntry pendingBlocked
  by_cases h : isAllowed cs (requiredConsentOf entry) = true
  · rw [if_pos h, h]
    simp only [Bool.not_true, Bool.false_and]
    split <;> rfl
  · have h' : isAllowed cs (requiredConsentOf entry) = false := by
      revert h; cases isAllowed cs (requiredConsentOf entry) <;> simp
    rw [if_neg h, h']
    simp

theorem dispatchLoop_queue (now : Nat) (e : JctEvent) (m : ConsentMgr)
    (l : List DestinationEntry) (hT : m.queueTimeout ≠ 0) :
    (dispatchLoop now e m l).mgr.queue
      = m.queue ++ List.replicate (l.countP (pendingBlocked m.state)) ⟨e, now⟩ := by
  induction l generalizing m with
  | nil => simp [dispatchLoop]
  | cons entry rest ih =>
      simp only [dispatchLoop]
      rw [List.countP_cons]
      by_cases hp : pendingBlocked m.state entry = true
      · have hpend : (dispatchEntry m.state entry e).pend = true := by
          rw [dispatchEntry_pend]; exact hp
        rw [if_pos hpend]
        have hT' : (mgrEnqueue m e now).queueTimeout ≠ 0 := by
          rw [mgrEnqueue_timeout]; exact hT
        rw [ih (mgrEnqueue m e now) hT', mgrEnqueue_state,
          mgrEnqueue_push m e now hT]
        simp [hp, List.append_assoc, List.replicate_succ]
      · have hpend : (dispatchEntry m.state entry e).pend = false := by
          rw [dispatchEntry_pend]
          revert hp; cases pendingBlocked m.state entry <;> simp
        rw [if_neg (by simp [hpend]), ih m hT]
        simp [hp]

theorem dispatchEntry_calls_destName (cs : ConsentState)
    (entry : DestinationEntry) (e : JctEvent) :
    ∀ c ∈ (dispatchEntry cs entry e).calls,
      c.destName = entry.destination.name := by
  unfold dispatchEntry
  by_cases h : isAllowed cs (requiredConsentOf entry) = true
  · rw [if_pos h]
    split <;> intro c hc
    · rw [List.mem_singleton] at hc; subst hc; rfl
    · rw [List.mem_singleton] at hc; subst hc; rfl
    · rcases List.mem_cons.mp hc with h1 | h1
      · subst h1; rfl
      · rw [List.mem_singleton] at h1; subst h1; rfl
  · rw [if_neg h]
    intro c hc
    exact absurd hc (List.not_mem_nil c)

-- Facts about `dispatchToDestinations` as a whole.

theorem dispatch_st_destinations (st : CollectorState) (e : JctEvent) :
    (dispatchToDestinations st e).st.destinations = st.destinations := rfl

theorem dispatch_st_user (st : CollectorState) (e : JctEvent) :
    (dispatchToDestinations st e).st.user = st.user := rfl

theorem dispatch_st_now (st : CollectorState) (e : JctEvent) :
    (dispatchToDestinations st e).st.now = st.now := rfl

theorem dispatch_st_mgr_state (st : CollectorState) (e : JctEvent) :
    (dispatchToDestinations st e).st.mgr.state = st.mgr.state := by
  unfold dispatchToDestinations
  exact dispatchLoop_mgr_state st.now e st.mgr st.destinations

theorem dispatch_calls (st : CollectorState) (e : JctEvent) :
    (dispatchToDestinations st e).calls
      = st.destinations.flatMap
          (fun entry => (dispatchEntry st.mgr.state entry e).calls) := by
  unfold dispatchToDestinations
  exact dispatchLoop_calls st.now e st.mgr st.destinations

theorem dispatch_emits (st : CollectorState) (e : JctEvent) :
    (dispatchToDestinations st e).emits
      = st.destinations.flatMap
          (fun entry => (dispatchEntry st.mgr.state entry e).emits) := by
  unfold dispatchToDestinations
  exact dispatchLoop_emits st.now e st.mgr st.destinations

theorem dispatch_st_buffer (st : CollectorState) (e : JctEvent) :
    (dispatchToDestinations st e).st.buffer = st.buffer := rfl

theorem dispatch_st_flushDeadline (st : CollectorState) (e : JctEvent) :
    (dispatchToDestinations st e).st.flushDeadline = st.flushDeadline := rfl

-- Per-entry behaviour on the consent-allowed path.

theorem dispatchEntry_transform_mem (cs : ConsentState)
    (entry : DestinationEntry) (e : JctEvent)
    (h : isAllowed cs (requiredConsentOf entry) = true) :
    DestCall.transformCall entry.destination.name e
      ∈ (dispatchEntry cs entry e).calls := by
  unfold dispatchEntry
  rw [if_pos h]
  split <;> simp

theorem dispatchEntry_calls_of_payload (cs : ConsentState)
    (entry : DestinationEntry) (e : JctEvent) (payload : Payload)
    (h : isAllowed cs (requiredConsentOf entry) = true)
    (ht : entry.destination.transform e = .ok (some payload)) :
    (dispatchEntry cs entry e).calls
      = [.transformCall entry.destination.name e,
         .sendCall entry.destination.name payload] := by
  unfold dispatchEntry
  rw [if_pos h, ht]

theorem dispatchEntry_error_emit (cs : ConsentState)
    (entry : DestinationEntry) (e : JctEvent) (err : Err)
    (h : isAllowed cs (requiredConsentOf entry) = true)
    (ht : entry.destination.transform e = .error err) :
    (dispatchEntry cs entry e).emits
      = [.destinationError entry.destination.name (some e)] := by
  unfold dispatchEntry
  rw [if_pos h, ht]

theorem dispatchEntry_sendErr_emit (cs : ConsentState)
    (entry : DestinationEntry) (e : JctEvent) (payload : Payload) (err : Err)
    (h : isAllowed cs (requiredConsentOf entry) = true)
    (ht : entry.destination.transform e = .ok (some payload))
    (hs : entry.destination.sendResult payload = .error err) :
    Emitted.destinationError entry.destination.name (some e)
      ∈ (dispatchEntry cs entry e).emits := by
  unfold dispatchEntry
  rw [if_pos h, ht]
  simp [hs]

theorem dispatchEntry_blocked (cs : ConsentState)
    (entry : DestinationEntry) (e : JctEvent)
    (h : isAllowed cs (requiredConsentOf entry) = false) :
    (dispatchEntry cs entry e).calls = []
      ∧ (dispatchEntry cs entry e).emits = []
      ∧ (dispatchEntry cs entry e).pend = isPending cs (requiredConsentOf entry) := by
  unfold dispatchEntry
  rw [if_neg (by simp [h])]
  exact ⟨rfl, rfl, rfl⟩

-- The flush loop and the consent-queue replay loop.

theorem dispatchAll_st_destinations (st : CollectorState) (evs : List JctEvent) :
    (dispatchAll st evs).st.destinations = st.destinations := by
  induction evs generalizing st with
  | nil => rfl
  | cons e rest ih => simp only [dispatchAll]; rw [ih]; rfl

theorem dispatchAll_st_mgr_state (st : CollectorState) (evs : List JctEvent) :
    (dispatchAll st evs).st.mgr.state = st.mgr.state := by
  induction evs generalizing st with
  | nil => rfl
  | cons e rest ih =>
      simp only [dispatchAll]
      rw [ih]
      exact dispatch_st_mgr_state st e

theorem dispatchAll_st_buffer (st : CollectorState) (evs : List JctEvent) :
    (dispatchAll st evs).st.buffer = st.buffer := by
  induction evs generalizing st with
  | nil => rfl
  | cons e rest ih => simp only [dispatchAll]; rw [ih]; rfl

theorem dispatchAll_st_flushDeadline (st : CollectorState) (evs : List JctEvent) :
    (dispatchAll st evs).st.flushDeadline = st.flushDeadline := by
  induction evs generalizing st with
  | nil => rfl
  | cons e rest ih => simp only [dispatchAll]; rw [ih]; rfl

theorem dispatchAll_calls (st : CollectorState) (evs : List JctEvent) :
    (dispatchAll st evs).calls
      = evs.flatMap (fun ev => st.destinations.flatMap
          (fun entry => (dispatchEntry st.mgr.state entry ev).calls)) := by
  induction evs generalizing st with
  | nil => rfl
  | cons e rest ih =>
      simp only [dispatchAll, List.flatMap_cons]
      congr 1
      · exact dispatch_calls st e
      · rw [ih]
        rw [dispatch_st_destinations, dispatch_st_mgr_state]

theorem redispatch_calls (st : CollectorState) (qs : List QueuedEvent) :
    (redispatch st qs).calls
      = qs.flatMap (fun q => st.destinations.flatMap
          (fun entry =>
            (dispatchEntry st.mgr.state entry { q.event with user := st.user }).calls)) := by
  induction qs generalizing st with
  | nil => rfl
  | cons q rest ih =>
      simp only [redispatch, List.flatMap_cons]
      congr 1
      · exact dispatch_calls st { q.event with user := st.user }
      · rw [ih]
        rw [dispatch_st_destinations, dispatch_st_mgr_state, dispatch_st_user]

-- Unfolding `consentOp` once the fate of the `onConsent` loop is known.

/-- The collector state right after the consent-change handler has merged the
new state and drained the queue (before replay). -/
def consentDrainedSt (st : CollectorState) (update : ConsentState) : CollectorState :=
  { st with mgr := { state := mergeState st.mgr.state update
                     queue := []
                     queueTimeout := st.mgr.queueTimeout } }

theorem consentOp_eq_of_ok (st : CollectorState) (update : ConsentState)
    (h : (onConsentLoop (mergeState st.mgr.state update) st.destinations).err = none) :
    consentOp st update
      = { st := (redispatch (consentDrainedSt st update) st.mgr.queue).st
          calls := (onConsentLoop (mergeState st.mgr.state update) st.destinations).calls
            ++ (redispatch (consentDrainedSt st update) st.mgr.queue).calls
          emits := [Emitted.consentEv (mergeState st.mgr.state update)]
            ++ (redispatch (consentDrainedSt st update) st.mgr.queue).emits
            ++ [Emitted.queueFlush st.mgr.queue.length] } := by
  simp only [consentOp, h, consentDrainedSt]

theorem consentOp_eq_of_err (st : CollectorState) (update : ConsentState)
    (err : Err)
    (h : (onConsentLoop (mergeState st.mgr.state update) st.destinations).err
      = some err) :
    consentOp st update
      = { st := { st with mgr := { st.mgr with
                    state := mergeState st.mgr.state update } }
          calls := (onConsentLoop (mergeState st.mgr.state update) st.destinations).calls
          emits := [Emitted.consentEv (mergeState st.mgr.state update)] } := by
  simp only [consentOp, h]

-- Counting calls.

theorem countTransformsTo_append (n : String) (a b : List DestCall) :
    countTransformsTo n (a ++ b)
      = countTransformsTo n a + countTransformsTo n b := by
  unfold countTransformsTo
  exact List.countP_append _ a b

theorem countSendsTo_append (n : String) (a b : List DestCall) :
    countSendsTo n (a ++ b) = countSendsTo n a + countSendsTo n b := by
  unfold countSendsTo
  exact List.countP_append _ a b

theorem countTransformsTo_eq_zero (n : String) (calls : List DestCall)
    (h : ∀ c ∈ calls, c.destName ≠ n) : countTransformsTo n calls = 0 := by
  unfold countTransformsTo
  rw [List.countP_eq_zero]
  intro c hc
  have := h c hc
  cases c with
  | transformCall d ev =>
      simp only [DestCall.destName] at this
      simp [this]
  | sendCall d p => simp
  | onConsentCall d s => simp

theorem countSendsTo_eq_zero (n : String) (calls : List DestCall)
    (h : ∀ c ∈ calls, c.destName ≠ n) : countSendsTo n calls = 0 := by
  unfold countSendsTo
  rw [List.countP_eq_zero]
  intro c hc
  have := h c hc
  cases c with
  | transformCall d ev => simp
  | sendCall d p =>
      simp only [DestCall.destName] at this
      simp [this]
  | onConsentCall d s => simp

theorem countTransformsTo_entryList_zero (cs : ConsentState) (n : String)
    (e : JctEvent) (l : List DestinationEntry)
    (h : ∀ entry ∈ l, entry.destination.name ≠ n) :
    countTransformsTo n
      (l.flatMap (fun entry => (dispatchEntry cs entry e).calls)) = 0 := by
  apply countTransformsTo_eq_zero
  intro c hc
  rcases List.mem_flatMap.mp hc with ⟨entry, hmem, hc'⟩
  rw [dispatchEntry_calls_destName cs entry e c hc']
  exact h entry hmem

theorem countSendsTo_entryList_zero (cs : ConsentState) (n : String)
    (e : JctEvent) (l : List DestinationEntry)
    (h : ∀ entry ∈ l, entry.destination.name ≠ n) :
    countSendsTo n
      (l.flatMap (fun entry => (dispatchEntry cs entry e).calls)) = 0 := by
  apply countSendsTo_eq_zero
  intro c hc
  rcases List.mem_flatMap.mp hc with ⟨entry, hmem, hc'⟩
  rw [dispatchEntry_calls_destName cs entry e c hc']
  exact h entry hmem

theorem onConsentLoop_calls_shape (s : ConsentState) (l : List DestinationEntry) :
    ∀ c ∈ (onConsentLoop s l).calls, ∃ d, c = DestCall.onConsentCall d s := by
  induction l with
  | nil => intro c hc; simp [onConsentLoop] at hc
  | cons entry rest ih =>
      intro c hc
      simp only [onConsentLoop] at hc
      cases h1 : entry.destination.onConsent with
      | none => rw [h1] at hc; exact ih c hc
      | some f =>
          rw [h1] at hc
          dsimp only at hc
          cases h2 : f s with
          | ok u =>
              rw [h2] at hc
              dsimp only at hc
              rcases List.mem_cons.mp hc with h3 | h3
              · exact ⟨entry.destination.name, h3⟩
              · exact ih c h3
          | error err =>
              rw [h2] at hc
              dsimp only at hc
              rw [List.mem_singleton] at hc
              exact ⟨entry.destination.name, hc⟩

theorem countTransformsTo_onConsent_zero (n : String) (s : ConsentState)
    (l : List DestinationEntry) :
    countTransformsTo n (onConsentLoop s l).calls = 0 := by
  unfold countTransformsTo
  rw [List.countP_eq_zero]
  intro c hc
  rcases onConsentLoop_calls_shape s l c hc with ⟨d, rfl⟩
  simp

theorem countSendsTo_onConsent_zero (n : String) (s : ConsentState)
    (l : List DestinationEntry) :
    countSendsTo n (onConsentLoop s l).calls = 0 := by
  unfold countSendsTo
  rw [List.countP_eq_zero]
  intro c hc
  rcases onConsentLoop_calls_shape s l c hc with ⟨d, rfl⟩
  simp

-- ── Concrete fixtures for witnesses and counterexamples ─────────

/-- A fixed anonymous identity. -/
def anonUser : UserIdentity := { anonymousId := "anon-1" }

/-- A minimal concrete event. -/
def sampleEvent (entity action : String) : JctEvent :=
  { entity := entity
    action := action
    properties := []
    context := []
    user := anonUser
    timestamp := 0
    id := 0
    version := "1.0.0"
    source := "client" }

/-- A fresh collector state over the given destinations and consent state
(defaults from the test harness: `queueTimeout` 30000, buffer 10/2000). -/
def baseState (dests : List DestinationEntry) (cs : ConsentState) : CollectorState :=
  { user := anonUser
    destinations := dests
    mgr := { state := cs, queue := [], queueTimeout := 30000 }
    validator := []
    buffer := []
    flushDeadline := none
    maxSize := 10
    maxWait := 2000
    nextId := 1
    context := []
    source := "client"
    now := 0 }

-- ── Claim C1 ────────────────────────────────────────────────────

/-- **C1.** During one dispatch pass over the registered destinations in
registration order, a destination whose `transform` throws has
`destination:error` emitted with the event attached, and every destination
after the throwing one still receives its `transform` (and, when consent
allows and transform is non-null, `send`) call for the same event; a
rejected `send` promise likewise emits `destination:error` (and, the loop
being a total function here, never propagates to the dispatch loop or to
`track()`'s caller). -/
theorem claim_C1_failure_isolation (st : CollectorState) (e : JctEvent)
    (pre post : List DestinationEntry) (a : DestinationEntry) (err : Err)
    (hdest : st.destinations = pre ++ a :: post)
    (ha : isAllowed st.mgr.state (requiredConsentOf a) = true)
    (hthrow : a.destination.transform e = .error err) :
    Emitted.destinationError a.destination.name (some e)
        ∈ (dispatchToDestinations st e).emits
    ∧ (∀ b ∈ post, isAllowed st.mgr.state (requiredConsentOf b) = true →
        DestCall.transformCall b.destination.name e
          ∈ (dispatchToDestinations st e).calls)
    ∧ (∀ b ∈ post, ∀ p, isAllowed st.mgr.state (requiredConsentOf b) = true →
        b.destination.transform e = .ok (some p) →
        DestCall.sendCall b.destination.name p
          ∈ (dispatchToDestinations st e).calls)
    ∧ (∀ b ∈ st.destinations, ∀ p e2,
        isAllowed st.mgr.state (requiredConsentOf b) = true →
        b.destination.transform e = .ok (some p) →
        b.destination.sendResult p = .error e2 →
        Emitted.destinationError b.destination.name (some e)
          ∈ (dispatchToDestinations st e).emits) := by
  have hamem : a ∈ st.destinations := by
    rw [hdest]
    exact List.mem_append.mpr (Or.inr (List.mem_cons_self a post))
  refine ⟨?_, ?_, ?_, ?_⟩
  · rw [dispatch_emits]
    refine List.mem_flatMap.mpr ⟨a, hamem, ?_⟩
    rw [dispatchEntry_error_emit st.mgr.state a e err ha hthrow]
    exact List.mem_singleton.mpr rfl
  · intro b hb hallow
    have hbmem : b ∈ st.destinations := by
      rw [hdest]
      exact List.mem_append.mpr (Or.inr (List.mem_cons.mpr (Or.inr hb)))
    rw [dispatch_calls]
    exact List.mem_flatMap.mpr
      ⟨b, hbmem, dispatchEntry_transform_mem st.mgr.state b e hallow⟩
  · intro b hb p hallow htr
    have hbmem : b ∈ st.destinations := by
      rw [hdest]
      exact List.mem_append.mpr (Or.inr (List.mem_cons.mpr (Or.inr hb)))
    rw [dispatch_calls]
    refine List.mem_flatMap.mpr ⟨b, hbmem, ?_⟩
    rw [dispatchEntry_calls_of_payload st.mgr.state b e p hallow htr]
    exact List.mem_cons.mpr (Or.inr (List.mem_singleton.mpr rfl))
  · intro b hb p e2 hallow htr hs
    rw [dispatch_emits]
    exact List.mem_flatMap.mpr
      ⟨b, hb, dispatchEntry_sendErr_emit st.mgr.state b e p e2 hallow htr hs⟩

/-- Destination whose `transform` throws. -/
def destFail : Destination :=
  { name := "fail-dest"
    version := "0.1.0"
    consent := ["analytics"]
    transform := fun _ => .error "Transform failed"
    sendResult := fun _ => .ok () }

/-- Destination whose `transform` succeeds and whose `send` resolves. -/
def destGood : Destination :=
  { name := "good-dest"
    version := "0.1.0"
    consent := ["analytics"]
    transform := fun _ => .ok (some "payload")
    sendResult := fun _ => .ok () }

/-- Destination whose `send` promise rejects. -/
def destRej : Destination :=
  { name := "rej-dest"
    version := "0.1.0"
    consent := ["analytics"]
    transform := fun _ => .ok (some "q")
    sendResult := fun _ => .error "Network error" }

def stC1 : CollectorState :=
  baseState [⟨destFail, none⟩, ⟨destGood, none⟩, ⟨destRej, none⟩]
    [("analytics", true)]

def evC1 : JctEvent := sampleEvent "page" "viewed"

/-- Witness for C1: `fail-dest` throws, yet `good-dest` is still transformed
and sent, and `rej-dest`'s rejected send is reported. -/
theorem claim_C1_witness :
    Emitted.destinationError "fail-dest" (some evC1)
        ∈ (dispatchToDestinations stC1 evC1).emits
    ∧ DestCall.transformCall "good-dest" evC1
        ∈ (dispatchToDestinations stC1 evC1).calls
    ∧ DestCall.sendCall "good-dest" "payload"
        ∈ (dispatchToDestinations stC1 evC1).calls
    ∧ Emitted.destinationError "rej-dest" (some evC1)
        ∈ (dispatchToDestinations stC1 evC1).emits := by
  have h := claim_C1_failure_isolation stC1 evC1 []
    [⟨destGood, none⟩, ⟨destRej, none⟩] ⟨destFail, none⟩ "Transform failed"
    rfl (by decide) rfl
  refine ⟨h.1, ?_, ?_, ?_⟩
  · exact h.2.1 ⟨destGood, none⟩ (List.mem_cons_self _ _) (by decide)
  · exact h.2.2.1 ⟨destGood, none⟩ (List.mem_cons_self _ _) "payload" (by decide) rfl
  · exact h.2.2.2 ⟨destRej, none⟩
      (List.Mem.tail _ (List.Mem.tail _ (List.Mem.head _))) "q" "Network error"
      (by decide) rfl rfl

-- ── Claim C2 ────────────────────────────────────────────────────

/-- Destination requiring only `"necessary"`. -/
def destNec : Destination :=
  { name := "nec-dest"
    version := "0.1.0"
    consent := ["necessary"]
    transform := fun _ => .ok (some "p")
    sendResult := fun _ => .ok () }

def stC2 : CollectorState := baseState [⟨destNec, none⟩] []

def evC2 : JctEvent := sampleEvent "page" "viewed"

/-- **C2, counterexample.** A destination whose required list is
`["necessary"]`, with `necessary` undefined in the consent state (so *no*
required category is explicitly `true`), still receives a `send` call, and
the event is *not* enqueued although a required category is undefined —
refuting the claim as universally stated. -/
theorem claim_C2_counterexample :
    lookupCat stC2.mgr.state "necessary" ≠ some true
    ∧ requiredConsentOf ⟨destNec, none⟩ = ["necessary"]
    ∧ DestCall.sendCall "nec-dest" "p" ∈ (dispatchToDestinations stC2 evC2).calls
    ∧ (dispatchToDestinations stC2 evC2).st.mgr.queue = [] := by
  refine ⟨by decide, rfl, by decide, by decide⟩

/-- **C2, amended.** For a destination whose effective required list is
nonempty and not composed entirely of `"necessary"`: if none of the required
categories is explicitly `true` at dispatch time, the destination receives
no `transform` and no `send` call in that pass; the enqueue decision for it
is exactly `isPending` (some required category undefined ⇒ enqueued; all
explicitly denied ⇒ dropped); and the other destinations' calls in the same
pass are exactly what they would be without this destination. -/
theorem claim_C2_amended (st : CollectorState) (e : JctEvent)
    (pre post : List DestinationEntry) (a : DestinationEntry)
    (hdest : st.destinations = pre ++ a :: post)
    (hne : (requiredConsentOf a).isEmpty = false)
    (hnn : (requiredConsentOf a).all (fun c => c == "necessary") = false)
    (hnone : ∀ c ∈ requiredConsentOf a, lookupCat st.mgr.state c ≠ some true) :
    (dispatchEntry st.mgr.state a e).calls = []
    ∧ (dispatchEntry st.mgr.state a e).pend
        = isPending st.mgr.state (requiredConsentOf a)
    ∧ (dispatchToDestinations st e).calls
        = pre.flatMap (fun b => (dispatchEntry st.mgr.state b e).calls)
          ++ post.flatMap (fun b => (dispatchEntry st.mgr.state b e).calls)
    ∧ ((∀ b ∈ pre ++ post, b.destination.name ≠ a.destination.name) →
        countTransformsTo a.destination.name (dispatchToDestinations st e).calls = 0
        ∧ countSendsTo a.destination.name (dispatchToDestinations st e).calls = 0) := by
  have hallow : isAllowed st.mgr.state (requiredConsentOf a) = false := by
    unfold isAllowed
    rw [if_neg]
    · rw [List.any_eq_false]
      intro c hc
      exact fun hcontra => hnone c hc (eq_of_beq hcontra)
    · rw [hne, hnn]
      simp
  obtain ⟨hcalls, _hemits, hpend⟩ := dispatchEntry_blocked st.mgr.state a e hallow
  have hflat : (dispatchToDestinations st e).calls
      = pre.flatMap (fun b => (dispatchEntry st.mgr.state b e).calls)
        ++ post.flatMap (fun b => (dispatchEntry st.mgr.state b e).calls) := by
    rw [dispatch_calls, hdest, List.flatMap_append, List.flatMap_cons, hcalls]
    simp
  refine ⟨hcalls, hpend, hflat, ?_⟩
  intro huniq
  constructor
  · rw [hflat, countTransformsTo_append]
    rw [countTransformsTo_entryList_zero _ _ _ pre
      (fun b hb => huniq b (List.mem_append.mpr (Or.inl hb)))]
    rw [countTransformsTo_entryList_zero _ _ _ post
      (fun b hb => huniq b (List.mem_append.mpr (Or.inr hb)))]
  · rw [hflat, countSendsTo_append]
    rw [countSendsTo_entryList_zero _ _ _ pre
      (fun b hb => huniq b (List.mem_append.mpr (Or.inl hb)))]
    rw [countSendsTo_entryList_zero _ _ _ post
      (fun b hb => huniq b (List.mem_append.mpr (Or.inr hb)))]

/-- Destination requiring `marketing`, for the C2 witness. -/
def destMkt : Destination :=
  { name := "mkt-dest"
    version := "0.1.0"
    consent := ["marketing"]
    transform := fun _ => .ok (some "m")
    sendResult := fun _ => .ok () }

def stC2w : CollectorState := baseState [⟨destMkt, none⟩] [("marketing", false)]

/-- Witness for the amended C2: `marketing` explicitly denied ⇒ no calls,
not enqueued (pending is false). -/
theorem claim_C2_witness :
    (dispatchEntry stC2w.mgr.state ⟨destMkt, none⟩ evC2).calls = []
    ∧ (dispatchEntry stC2w.mgr.state ⟨destMkt, none⟩ evC2).pend
        = isPending stC2w.mgr.state (requiredConsentOf ⟨destMkt, none⟩)
    ∧ countTransformsTo "mkt-dest" (dispatchToDestinations stC2w evC2).calls = 0
    ∧ countSendsTo "mkt-dest" (dispatchToDestinations stC2w evC2).calls = 0 := by
  have h := claim_C2_amended stC2w evC2 [] [] ⟨destMkt, none⟩ rfl (by decide)
    (by decide) (by decide)
  have h4 := h.2.2.2 (fun b hb => absurd hb (List.not_mem_nil b))
  exact ⟨h.1, h.2.1, h4.1, h4.2⟩

-- ── Claim C5 ────────────────────────────────────────────────────

/-- **C5, counterexample.** A requirement list *containing* `"necessary"`
together with another category is **not** allowed when no required category
is stored `true` — whether `necessary` is stored `false` or undefined — so
`necessary` is not "implicitly always-allowed" inside mixed lists. -/
theorem claim_C5_counterexample :
    isAllowed [("necessary", false), ("analytics", false)]
      ["necessary", "analytics"] = false
    ∧ isAllowed [("analytics", false)] ["necessary", "analytics"] = false := by
  decide

/-- **C5, amended.** `isAllowed` is true for the empty list and for any
all-`"necessary"` list, regardless of the stored value of `necessary`; for
every other list it equals the OR over required categories of "stored
explicitly `true`" (so `necessary` inside a mixed list counts only through
its stored value). -/
theorem claim_C5_amended (s : ConsentState) (req : List ConsentCategory) :
    isAllowed s [] = true
    ∧ (req.all (fun c => c == "necessary") = true → isAllowed s req = true)
    ∧ ((req.isEmpty = false → req.all (fun c => c == "necessary") = false →
        isAllowed s req
          = req.any (fun c => lookupCat s c == some true))) := by
  refine ⟨rfl, ?_, ?_⟩
  · intro hall
    unfold isAllowed
    rw [if_pos]
    rw [hall]
    simp
  · intro hne hnn
    unfold isAllowed
    rw [if_neg]
    rw [hne, hnn]
    simp

/-- Witness for the amended C5 at concrete states. -/
theorem claim_C5_witness :
    isAllowed [("necessary", false)] [] = true
    ∧ isAllowed [("necessary", false)] ["necessary", "necessary"] = true
    ∧ isAllowed [("necessary", false), ("analytics", true)]
        ["necessary", "analytics"]
      = (["necessary", "analytics"].any
          (fun c => lookupCat [("necessary", false), ("analytics", true)] c
            == some true)) := by
  refine ⟨(claim_C5_amended [("necessary", false)] []).1, ?_, ?_⟩
  · exact (claim_C5_amended [("necessary", false)]
      ["necessary", "necessary"]).2.1 (by decide)
  · exact (claim_C5_amended [("necessary", false), ("analytics", true)]
      ["necessary", "analytics"]).2.2 (by decide) (by decide)

-- ── Claim C9 ────────────────────────────────────────────────────

/-- **C9.** With `queueTimeout = 0`, `enqueue` is a no-op (the queue stays
as it was, in particular empty); with `queueTimeout > 0`, the sweep interval
is `min(queueTimeout, 30s)` (hence no greater than it) and the sweep keeps
exactly the entries with `now − queuedAt < queueTimeout`, removing exactly
those with `now − queuedAt ≥ queueTimeout`. -/
theorem claim_C9_queue_expiry (m : ConsentMgr) (e : JctEvent) (t now : Nat)
    (q : QueuedEvent) :
    (m.queueTimeout = 0 → mgrEnqueue m e t = m)
    ∧ (0 < m.queueTimeout →
        cleanupIntervalMs m.queueTimeout ≤ min m.queueTimeout 30000
        ∧ sweepTimerArmed m.queueTimeout = true)
    ∧ (q ∈ (sweepQueue m now).queue ↔
        q ∈ m.queue ∧ now - q.queuedAt < m.queueTimeout) := by
  refine ⟨?_, ?_, ?_⟩
  · intro h0
    unfold mgrEnqueue
    rw [if_pos]
    rw [h0]
    rfl
  · intro hpos
    refine ⟨Nat.le_refl _, ?_⟩
    unfold sweepTimerArmed
    simp [hpos]
  · unfold sweepQueue
    constructor
    · intro h
      have h' := List.mem_filter.mp h
      exact ⟨h'.1, by simpa using h'.2⟩
    · intro h
      exact List.mem_filter.mpr ⟨h.1, by simpa using h.2⟩

/-- Consent manager with queuing disabled. -/
def mgrOff : ConsentMgr := { state := [], queue := [], queueTimeout := 0 }

/-- Consent manager with a 5s timeout, one stale and one fresh entry. -/
def mgrOn : ConsentMgr :=
  { state := []
    queue := [⟨sampleEvent "a" "old", 1000⟩, ⟨sampleEvent "a" "new", 9000⟩]
    queueTimeout := 5000 }

/-- Witness for C9: the no-op enqueue, the interval bound, and the sweep
keeping the fresh entry while the stale one satisfies the removal side. -/
theorem claim_C9_witness :
    mgrEnqueue mgrOff (sampleEvent "p" "v") 7 = mgrOff
    ∧ cleanupIntervalMs mgrOn.queueTimeout ≤ min mgrOn.queueTimeout 30000
    ∧ (⟨sampleEvent "a" "new", 9000⟩ ∈ (sweepQueue mgrOn 10000).queue ↔
        (⟨sampleEvent "a" "new", 9000⟩ : QueuedEvent) ∈ mgrOn.queue
          ∧ 10000 - 9000 < mgrOn.queueTimeout)
    ∧ (⟨sampleEvent "a" "old", 1000⟩ ∈ (sweepQueue mgrOn 10000).queue ↔
        (⟨sampleEvent "a" "old", 1000⟩ : QueuedEvent) ∈ mgrOn.queue
          ∧ 10000 - 1000 < mgrOn.queueTimeout) := by
  refine ⟨?_, ?_, ?_, ?_⟩
  · exact (claim_C9_queue_expiry mgrOff (sampleEvent "p" "v") 7 0
      ⟨sampleEvent "p" "v", 0⟩).1 rfl
  · exact ((claim_C9_queue_expiry mgrOn (sampleEvent "p" "v") 7 10000
      ⟨sampleEvent "p" "v", 0⟩).2.1 (by decide)).1
  · exact (claim_C9_queue_expiry mgrOn (sampleEvent "p" "v") 7 10000
      ⟨sampleEvent "a" "new", 9000⟩).2.2
  · exact (claim_C9_queue_expiry mgrOn (sampleEvent "p" "v") 7 10000
      ⟨sampleEvent "a" "old", 1000⟩).2.2

-- ── Claim C6 ────────────────────────────────────────────────────

/-- **C6.** For a contract found for the event in `strict` mode whose schema
fails on the event's properties: `validate` returns `valid := false` with the
original event unchanged and `errors` populated; `track` emits
`event:invalid` (and nothing else), does not append the event to the buffer,
and makes no destination call, so no `transform` ever observes the event. -/
theorem claim_C6_strict_drop (st : CollectorState) (entity action : String)
    (props : Properties) (c : EventContract) (zerr : Err)
    (hfind : findContract st.validator entity action = some c)
    (hmode : c.mode = .strict)
    (hfail : c.schema props = .failure zerr) :
    validate st.validator (buildEvent st entity action props)
      = { valid := false
          event := buildEvent st entity action props
          errors := some zerr }
    ∧ (track st entity action props).emits
        = [Emitted.eventInvalid (buildEvent st entity action props) (some zerr)]
    ∧ (track st entity action props).st.buffer = st.buffer
    ∧ (track st entity action props).calls = [] := by
  have hv : validate st.validator (buildEvent st entity action props)
      = { valid := false
          event := buildEvent st entity action props
          errors := some zerr } := by
    unfold validate
    have he : (buildEvent st entity action props).entity = entity := rfl
    have hac : (buildEvent st entity action props).action = action := rfl
    have hp : (buildEvent st entity action props).properties = props := rfl
    rw [he, hac, hfind, hp]
    simp only [hfail, hmode]
  refine ⟨hv, ?_, ?_, ?_⟩ <;>
    simp only [track, hv] <;> rfl

/-- Contract for `product:viewed` in strict mode; the schema rejects the
specific invalid property bag used in the witness. -/
def contractC6 : EventContract :=
  { entity := "product"
    action := "viewed"
    version := "1.0.0"
    mode := .strict
    schema := fun props =>
      if props == [("product_id", ""), ("price", "-1")] then
        .failure "validation failed"
      else
        .success props }

def stC6 : CollectorState :=
  { baseState [⟨destGood, none⟩] [("analytics", true)] with
      validator := registerContract [] contractC6 }

/-- Witness for C6: the invalid `product:viewed` event is dropped — nothing
buffered, no destination call, only `event:invalid` emitted. -/
theorem claim_C6_witness :
    (track stC6 "product" "viewed" [("product_id", ""), ("price", "-1")]).st.buffer
      = []
    ∧ (track stC6 "product" "viewed" [("product_id", ""), ("price", "-1")]).calls
      = []
    ∧ (track stC6 "product" "viewed" [("product_id", ""), ("price", "-1")]).emits
      = [Emitted.eventInvalid
          (buildEvent stC6 "product" "viewed" [("product_id", ""), ("price", "-1")])
          (some "validation failed")] := by
  have h := claim_C6_strict_drop stC6 "product" "viewed"
    [("product_id", ""), ("price", "-1")] contractC6 "validation failed"
    rfl rfl rfl
  exact ⟨h.2.2.1, h.2.2.2, h.2.1⟩

-- ── Lemmas for the consent-change replay claims ─────────────────

theorem lookupCat_merge_single (s : ConsentState) (c : String) (b : Bool) :
    lookupCat (mergeState s [(c, b)]) c = some b := by
  unfold mergeState lookupCat
  rw [List.singleton_append, List.find?_cons_of_pos _ (by simp)]
  rfl

theorem isAllowed_merge_single (s : ConsentState) (c : String) :
    isAllowed (mergeState s [(c, true)]) [c] = true := by
  unfold isAllowed
  by_cases h : (([c] : List String).isEmpty
      || ([c] : List String).all (fun x => x == "necessary")) = true
  · rw [if_pos h]
  · rw [if_neg h]
    simp [lookupCat_merge_single]

theorem countTransformsTo_pair (n : String) (e : JctEvent) (p : Payload) :
    countTransformsTo n [DestCall.transformCall n e, DestCall.sendCall n p] = 1 := by
  simp [countTransformsTo, List.countP_cons]

theorem countSendsTo_pair (n : String) (e : JctEvent) (p : Payload) :
    countSendsTo n [DestCall.transformCall n e, DestCall.sendCall n p] = 1 := by
  simp [countSendsTo, List.countP_cons]

/-- Counting `transform`/`send` calls to a uniquely named, consent-allowed
destination during a single dispatch of one event. -/
theorem counts_one_dispatch (cs : ConsentState) (ev : JctEvent)
    (pre post : List DestinationEntry) (a : DestinationEntry) (payload : Payload)
    (hallow : isAllowed cs (requiredConsentOf a) = true)
    (huniq : ∀ b ∈ pre ++ post, b.destination.name ≠ a.destination.name)
    (htr : a.destination.transform ev = .ok (some payload)) :
    countTransformsTo a.destination.name
      ((pre ++ a :: post).flatMap (fun b => (dispatchEntry cs b ev).calls)) = 1
    ∧ countSendsTo a.destination.name
      ((pre ++ a :: post).flatMap (fun b => (dispatchEntry cs b ev).calls)) = 1 := by
  have hpre : ∀ b ∈ pre, b.destination.name ≠ a.destination.name :=
    fun b hb => huniq b (List.mem_append.mpr (Or.inl hb))
  have hpost : ∀ b ∈ post, b.destination.name ≠ a.destination.name :=
    fun b hb => huniq b (List.mem_append.mpr (Or.inr hb))
  rw [List.flatMap_append, List.flatMap_cons]
  constructor
  · rw [countTransformsTo_append, countTransformsTo_append,
      countTransformsTo_entryList_zero cs _ ev pre hpre,
      countTransformsTo_entryList_zero cs _ ev post hpost,
      dispatchEntry_calls_of_payload cs a ev payload hallow htr,
      countTransformsTo_pair]
  · rw [countSendsTo_append, countSendsTo_append,
      countSendsTo_entryList_zero cs _ ev pre hpre,
      countSendsTo_entryList_zero cs _ ev post hpost,
      dispatchEntry_calls_of_payload cs a ev payload hallow htr,
      countSendsTo_pair]

/-- Counting calls to a uniquely named, consent-allowed destination across
the consent-queue replay loop: one `transform` and one `send` per queued
entry. -/
theorem counts_redispatch (st : CollectorState) (qs : List QueuedEvent)
    (pre post : List DestinationEntry) (a : DestinationEntry) (payload : Payload)
    (hdest : st.destinations = pre ++ a :: post)
    (hallow : isAllowed st.mgr.state (requiredConsentOf a) = true)
    (huniq : ∀ b ∈ pre ++ post, b.destination.name ≠ a.destination.name)
    (htr : ∀ q ∈ qs, a.destination.transform { q.event with user := st.user }
      = .ok (some payload)) :
    countTransformsTo a.destination.name (redispatch st qs).calls = qs.length
    ∧ countSendsTo a.destination.name (redispatch st qs).calls = qs.length := by
  rw [redispatch_calls, hdest]
  induction qs with
  | nil => exact ⟨rfl, rfl⟩
  | cons q rest ih =>
      have hone := counts_one_dispatch st.mgr.state
        { q.event with user := st.user } pre post a payload hallow huniq
        (htr q (List.mem_cons_self q rest))
      have hrest := ih (fun q' hq' => htr q' (List.mem_cons.mpr (Or.inr hq')))
      rw [List.flatMap_cons]
      constructor
      · rw [countTransformsTo_append, hone.1, hrest.1, List.length_cons,
          Nat.add_comm]
      · rw [countSendsTo_append, hone.2, hrest.2, List.length_cons,
          Nat.add_comm]

-- ── Claim C3 ────────────────────────────────────────────────────

/-- **C3.** An event sitting once in the consent queue (enqueued while a
destination's required category was pending), followed by
`consent({c: true})`, yields exactly one `transform` and one `send` call to
a (uniquely named) destination requiring only that category; the transform
call the destination receives carries the user snapshot current at the
consent change (`st.user`, reflecting any later `identify()`), and every
transform call it receives in this operation carries exactly that snapshot —
never the snapshot stored in the queued event. -/
theorem claim_C3_queue_replay (st : CollectorState) (e : JctEvent) (t : Nat)
    (c : String) (pre post : List DestinationEntry) (a : DestinationEntry)
    (payload : Payload)
    (hq : st.mgr.queue = [⟨e, t⟩])
    (hdest : st.destinations = pre ++ a :: post)
    (hreq : requiredConsentOf a = [c])
    (hoc : (onConsentLoop (mergeState st.mgr.state [(c, true)])
      st.destinations).err = none)
    (htr : a.destination.transform { e with user := st.user } = .ok (some payload))
    (huniq : ∀ b ∈ pre ++ post, b.destination.name ≠ a.destination.name) :
    countTransformsTo a.destination.name (consentOp st [(c, true)]).calls = 1
    ∧ countSendsTo a.destination.name (consentOp st [(c, true)]).calls = 1
    ∧ DestCall.transformCall a.destination.name { e with user := st.user }
        ∈ (consentOp st [(c, true)]).calls
    ∧ (∀ ev, DestCall.transformCall a.destination.name ev
        ∈ (consentOp st [(c, true)]).calls → ev = { e with user := st.user }) := by
  have hallow : isAllowed (consentDrainedSt st [(c, true)]).mgr.state
      (requiredConsentOf a) = true := by
    have : (consentDrainedSt st [(c, true)]).mgr.state
        = mergeState st.mgr.state [(c, true)] := rfl
    rw [this, hreq]
    exact isAllowed_merge_single st.mgr.state c
  have hdest' : (consentDrainedSt st [(c, true)]).destinations
      = pre ++ a :: post := hdest
  have htr' : ∀ q ∈ ([⟨e, t⟩] : List QueuedEvent),
      a.destination.transform
        { q.event with user := (consentDrainedSt st [(c, true)]).user }
      = .ok (some payload) := by
    intro q hq'
    rw [List.mem_singleton] at hq'
    subst hq'
    exact htr
  have hcounts := counts_redispatch (consentDrainedSt st [(c, true)]) [⟨e, t⟩]
    pre post a payload hdest' hallow huniq htr'
  have hamem : a ∈ (consentDrainedSt st [(c, true)]).destinations := by
    rw [hdest']
    exact List.mem_append.mpr (Or.inr (List.mem_cons_self a post))
  rw [consentOp_eq_of_ok st [(c, true)] hoc]
  refine ⟨?_, ?_, ?_, ?_⟩
  · rw [countTransformsTo_append, countTransformsTo_onConsent_zero, hq,
      hcounts.1]
    rfl
  · rw [countSendsTo_append, countSendsTo_onConsent_zero, hq, hcounts.2]
    rfl
  · apply List.mem_append.mpr
    right
    rw [hq, redispatch_calls]
    refine List.mem_flatMap.mpr ⟨⟨e, t⟩, List.mem_singleton.mpr rfl, ?_⟩
    refine List.mem_flatMap.mpr ⟨a, hamem, ?_⟩
    exact dispatchEntry_transform_mem _ a _ hallow
  · intro ev hmem
    rcases List.mem_append.mp hmem with hoc' | hrd
    · rcases onConsentLoop_calls_shape _ _ _ hoc' with ⟨d, heq⟩
      simp at heq
    · rw [hq, redispatch_calls] at hrd
      rcases List.mem_flatMap.mp hrd with ⟨q, hqmem, hcall⟩
      rw [List.mem_singleton] at hqmem
      subst hqmem
      rcases List.mem_flatMap.mp hcall with ⟨b, hbmem, hbcall⟩
      have hbname : a.destination.name = b.destination.name :=
        dispatchEntry_calls_destName _ b _ _ hbcall
      have hbmem' : b ∈ pre ++ a :: post := by
        rw [← hdest']
        exact hbmem
      rcases List.mem_append.mp hbmem' with hbpre | hbcons
      · exact absurd hbname.symm
          (huniq b (List.mem_append.mpr (Or.inl hbpre)))
      · rcases List.mem_cons.mp hbcons with rfl | hbpost
        · rw [dispatchEntry_calls_of_payload _ b _ payload hallow
            (htr' ⟨e, t⟩ (List.mem_singleton.mpr rfl))] at hbcall
          rcases List.mem_cons.mp hbcall with h1 | h1
          · injection h1 with _ h2
          · rw [List.mem_singleton] at h1
            simp at h1
        · exact absurd hbname.symm
            (huniq b (List.mem_append.mpr (Or.inr hbpost)))

/-- Destination requiring only `analytics`, used by the C3/C10 witnesses. -/
def destAna : Destination :=
  { name := "ana-dest"
    version := "0.1.0"
    consent := ["analytics"]
    transform := fun _ => .ok (some "A")
    sendResult := fun _ => .ok () }

/-- State for the C3 witness: the sample event was queued at `t = 5` while
`analytics` was pending, and the user has since been identified. -/
def stC3 : CollectorState :=
  { baseState [⟨destAna, none⟩] [] with
      user := { anonymousId := "anon-1", userId := some "user-42" }
      mgr := { state := []
               queue := [⟨sampleEvent "page" "viewed", 5⟩]
               queueTimeout := 30000 } }

/-- Witness for C3 — including that the replayed event carries the
post-identify user, not the snapshot from enqueue time. -/
theorem claim_C3_witness :
    countTransformsTo "ana-dest" (consentOp stC3 [("analytics", true)]).calls = 1
    ∧ countSendsTo "ana-dest" (consentOp stC3 [("analytics", true)]).calls = 1
    ∧ DestCall.transformCall "ana-dest"
        { sampleEvent "page" "viewed" with
            user := { anonymousId := "anon-1", userId := some "user-42" } }
        ∈ (consentOp stC3 [("analytics", true)]).calls
    ∧ (DestCall.transformCall "ana-dest" (sampleEvent "page" "viewed")
        ∈ (consentOp stC3 [("analytics", true)]).calls →
        sampleEvent "page" "viewed"
          = { sampleEvent "page" "viewed" with
                user := { anonymousId := "anon-1", userId := some "user-42" } }) := by
  have h := claim_C3_queue_replay stC3 (sampleEvent "page" "viewed") 5
    "analytics" [] [] ⟨destAna, none⟩ "A" rfl rfl rfl rfl rfl
    (fun b hb => absurd hb (List.not_mem_nil b))
  exact ⟨h.1, h.2.1, h.2.2.1, fun hm => h.2.2.2 (sampleEvent "page" "viewed") hm⟩

-- ── Claim C10 ───────────────────────────────────────────────────

/-- **C10.** In a single dispatch pass (queuing enabled), the queue grows by
exactly one entry per pending-blocked destination — `k` destinations blocked
on pending consent for one event produce `k` separate queue entries for that
event. After a consent change, each drained entry goes through the full
destination loop again, so with two entries for the same event a single
(uniquely named, now-allowed) destination receives two transform calls —
more than one delivery of a single tracked event. -/
theorem claim_C10_duplicate_delivery (st : CollectorState) (e : JctEvent)
    (u : ConsentState) (pre post : List DestinationEntry) (a : DestinationEntry)
    (payload : Payload) (t1 t2 : Nat) :
    (st.mgr.queueTimeout ≠ 0 →
      (dispatchToDestinations st e).st.mgr.queue
        = st.mgr.queue ++ List.replicate
            (st.destinations.countP (pendingBlocked st.mgr.state)) ⟨e, st.now⟩)
    ∧ (st.mgr.queue = [⟨e, t1⟩, ⟨e, t2⟩] →
       st.destinations = pre ++ a :: post →
       (onConsentLoop (mergeState st.mgr.state u) st.destinations).err = none →
       isAllowed (mergeState st.mgr.state u) (requiredConsentOf a) = true →
       a.destination.transform { e with user := st.user } = .ok (some payload) →
       (∀ b ∈ pre ++ post, b.destination.name ≠ a.destination.name) →
       countTransformsTo a.destination.name (consentOp st u).calls = 2) := by
  constructor
  · intro hT
    exact dispatchLoop_queue st.now e st.mgr st.destinations hT
  · intro hq hdest hoc hallow htr huniq
    have hallow' : isAllowed (consentDrainedSt st u).mgr.state
        (requiredConsentOf a) = true := hallow
    have hdest' : (consentDrainedSt st u).destinations = pre ++ a :: post := hdest
    have htr' : ∀ q ∈ ([⟨e, t1⟩, ⟨e, t2⟩] : List QueuedEvent),
        a.destination.transform
          { q.event with user := (consentDrainedSt st u).user }
        = .ok (some payload) := by
      intro q hq'
      rcases List.mem_cons.mp hq' with rfl | hq''
      · exact htr
      · rw [List.mem_singleton] at hq''
        subst hq''
        exact htr
    have hcounts := counts_redispatch (consentDrainedSt st u) [⟨e, t1⟩, ⟨e, t2⟩]
      pre post a payload hdest' hallow' huniq htr'
    rw [consentOp_eq_of_ok st u hoc, countTransformsTo_append,
      countTransformsTo_onConsent_zero, hq, hcounts.1]
    rfl

/-- A second destination requiring only `analytics`. -/
def destAna2 : Destination :=
  { name := "ana2-dest"
    version := "0.1.0"
    consent := ["analytics"]
    transform := fun _ => .ok (some "B")
    sendResult := fun _ => .ok () }

/-- Two destinations pending on `analytics`, empty queue. -/
def stC10 : CollectorState :=
  baseState [⟨destAna, none⟩, ⟨destAna2, none⟩] []

/-- Same two destinations, with the same event queued twice (as the dispatch
pass of `stC10` produces). -/
def stC10b : CollectorState :=
  { baseState [⟨destAna, none⟩, ⟨destAna2, none⟩] [] with
      mgr := { state := []
               queue := [⟨sampleEvent "page" "viewed", 3⟩,
                         ⟨sampleEvent "page" "viewed", 4⟩]
               queueTimeout := 30000 } }

/-- Witness for C10: one dispatch with two pending destinations enqueues the
event twice; replaying a two-entry queue delivers the event twice to the
first destination. -/
theorem claim_C10_witness :
    (dispatchToDestinations stC10 (sampleEvent "page" "viewed")).st.mgr.queue
      = stC10.mgr.queue ++ List.replicate
          (stC10.destinations.countP (pendingBlocked stC10.mgr.state))
          ⟨sampleEvent "page" "viewed", stC10.now⟩
    ∧ stC10.destinations.countP (pendingBlocked stC10.mgr.state) = 2
    ∧ countTransformsTo "ana-dest"
        (consentOp stC10b [("analytics", true)]).calls = 2 := by
  refine ⟨?_, by decide, ?_⟩
  · exact (claim_C10_duplicate_delivery stC10 (sampleEvent "page" "viewed")
      [("analytics", true)] [] [] ⟨destAna, none⟩ "A" 0 0).1 (by decide)
  · refine (claim_C10_duplicate_delivery stC10b (sampleEvent "page" "viewed")
      [("analytics", true)] [] [⟨destAna2, none⟩] ⟨destAna, none⟩ "A" 3 4).2
      rfl rfl rfl (by decide) rfl ?_
    intro b hb
    simp only [List.nil_append, List.mem_singleton] at hb
    subst hb
    decide

-- ── Claim C8 ────────────────────────────────────────────────────

/-- The `onConsent` loop over `pre ++ a :: post` when everything in `pre`
succeeds and `a`'s `onConsent` throws: calls stop at `a`, the exception
escapes. -/
theorem onConsentLoop_append_err (s : ConsentState)
    (pre post : List DestinationEntry) (a : DestinationEntry)
    (f : ConsentState → Except Err Unit) (err : Err)
    (hpre : (onConsentLoop s pre).err = none)
    (ha : a.destination.onConsent = some f)
    (herr : f s = .error err) :
    onConsentLoop s (pre ++ a :: post)
      = { calls := (onConsentLoop s pre).calls
            ++ [DestCall.onConsentCall a.destination.name s]
          err := some err } := by
  induction pre with
  | nil =>
      simp only [List.nil_append, onConsentLoop, ha, herr]
  | cons b pre' ih =>
      cases hb : b.destination.onConsent with
      | none =>
          have hpre' : (onConsentLoop s pre').err = none := by
            simp only [onConsentLoop, hb] at hpre
            exact hpre
          simp only [List.cons_append, onConsentLoop, hb]
          simp only [onConsentLoop, hb] at *
          exact ih hpre'
      | some g =>
          cases hg : g s with
          | ok v =>
              have hpre' : (onConsentLoop s pre').err = none := by
                simp only [onConsentLoop, hb, hg] at hpre
                exact hpre
              simp only [List.cons_append, onConsentLoop, hb, hg,
                List.append_eq]
              rw [ih hpre']
          | error e' =>
              simp only [onConsentLoop, hb, hg] at hpre
              exact Option.noConfusion hpre

/-- **C8, amended.** On a consent state change, the handler emits `consent`
and then calls `onConsent` on the destinations in registration order up to
and including the first one that throws. The throw is caught by the consent
manager's `notify` try/catch, so the Collector does not crash and the state
update is retained — but the remaining destinations' `onConsent` callbacks,
the queue drain and re-dispatch, and the `queue:flush` emission are all
skipped for that change (the queue is left untouched). -/
theorem claim_C8_amended (st : CollectorState) (u : ConsentState)
    (pre post : List DestinationEntry) (a : DestinationEntry)
    (f : ConsentState → Except Err Unit) (err : Err)
    (hdest : st.destinations = pre ++ a :: post)
    (hpre : (onConsentLoop (mergeState st.mgr.state u) pre).err = none)
    (ha : a.destination.onConsent = some f)
    (herr : f (mergeState st.mgr.state u) = .error err) :
    (consentOp st u).emits = [Emitted.consentEv (mergeState st.mgr.state u)]
    ∧ (consentOp st u).calls
        = (onConsentLoop (mergeState st.mgr.state u) pre).calls
          ++ [DestCall.onConsentCall a.destination.name
                (mergeState st.mgr.state u)]
    ∧ (consentOp st u).st.mgr.state = mergeState st.mgr.state u
    ∧ (consentOp st u).st.mgr.queue = st.mgr.queue := by
  have hloop := onConsentLoop_append_err (mergeState st.mgr.state u)
    pre post a f err hpre ha herr
  have herr' : (onConsentLoop (mergeState st.mgr.state u) st.destinations).err
      = some err := by
    rw [hdest, hloop]
  rw [consentOp_eq_of_err st u err herr']
  refine ⟨rfl, ?_, rfl, rfl⟩
  rw [hdest, hloop]

/-- `onConsent` callback that throws. -/
def ocBoom : ConsentState → Except Err Unit := fun _ => .error "boom"

/-- `onConsent` callback that succeeds. -/
def ocOk : ConsentState → Except Err Unit := fun _ => .ok ()

def destA8 : Destination :=
  { name := "A8"
    version := "0.1.0"
    consent := ["analytics"]
    transform := fun _ => .ok (some "a8")
    sendResult := fun _ => .ok ()
    onConsent := some ocBoom }

def destB8 : Destination :=
  { name := "B8"
    version := "0.1.0"
    consent := ["analytics"]
    transform := fun _ => .ok (some "b8")
    sendResult := fun _ => .ok ()
    onConsent := some ocOk }

/-- Queue holds one event; `A8`'s `onConsent` throws, `B8` is after it. -/
def stC8 : CollectorState :=
  { baseState [⟨destA8, none⟩, ⟨destB8, none⟩] [] with
      mgr := { state := []
               queue := [⟨sampleEvent "page" "viewed", 5⟩]
               queueTimeout := 30000 } }

/-- **C8, counterexample.** With `A8` throwing in `onConsent`, the only
destination call of the whole consent change is `A8`'s `onConsent` (so `B8`
never gets its callback), the only emission is `consent` (so `queue:flush`
never fires), and the queue is not drained — refuting the claim that one
destination's `onConsent` exception prevents none of these. -/
theorem claim_C8_counterexample :
    (consentOp stC8 [("analytics", true)]).calls
      = [DestCall.onConsentCall "A8" [("analytics", true)]]
    ∧ (consentOp stC8 [("analytics", true)]).emits
      = [Emitted.consentEv [("analytics", true)]]
    ∧ (consentOp stC8 [("analytics", true)]).st.mgr.queue
      = [⟨sampleEvent "page" "viewed", 5⟩] := by
  decide

/-- Witness for the amended C8 on the concrete throwing scenario. -/
theorem claim_C8_witness :
    (consentOp stC8 [("analytics", true)]).emits
      = [Emitted.consentEv [("analytics", true)]]
    ∧ (consentOp stC8 [("analytics", true)]).calls
      = (onConsentLoop [("analytics", true)] []).calls
        ++ [DestCall.onConsentCall "A8" [("analytics", true)]]
    ∧ (consentOp stC8 [("analytics", true)]).st.mgr.state
      = [("analytics", true)]
    ∧ (consentOp stC8 [("analytics", true)]).st.mgr.queue
      = stC8.mgr.queue := by
  exact claim_C8_amended stC8 [("analytics", true)] [] [⟨destB8, none⟩]
    ⟨destA8, none⟩ ocBoom "boom" rfl rfl rfl rfl

-- ── Claim C4 ────────────────────────────────────────────────────

def destA4 : Destination :=
  { name := "A4"
    version := "0.1.0"
    consent := ["analytics"]
    transform := fun _ => .ok (some "p4")
    sendResult := fun _ => .ok ()
    onConsent := none }

/-- One destination requiring `analytics`, which is pending. -/
def stC4 : CollectorState := baseState [⟨destA4, none⟩] []

/-- After `track("page","viewed")` (buffered, no dispatch yet). -/
def stC4a : CollectorState := (track stC4 "page" "viewed" []).st

/-- After the `maxWait` flush timer fires at `now = 2000`: the event is
blocked on pending consent and sits in the consent queue. -/
def stC4b : CollectorState := (fireFlushTimer { stC4a with now := 2000 }).st

/-- **C4 (evaluation at the failing input).** Contrary to the claim that the
queue drain and re-dispatch are deferred to a later microtask, the code runs
them synchronously inside `consent()`: with one event queued on pending
`analytics`, the `consent({analytics:true})` call itself already contains
the destination's `transform` and `send` calls and the `queue:flush`
emission — there is nothing left for a later microtask. -/
theorem claim_C4_synchronous_drain :
    (track stC4 "page" "viewed" []).calls = []
    ∧ (fireFlushTimer { stC4a with now := 2000 }).calls = []
    ∧ stC4b.mgr.queue.length = 1
    ∧ countTransformsTo "A4" (consentOp stC4b [("analytics", true)]).calls = 1
    ∧ countSendsTo "A4" (consentOp stC4b [("analytics", true)]).calls = 1
    ∧ Emitted.queueFlush 1 ∈ (consentOp stC4b [("analytics", true)]).emits := by
  decide

-- ── Claim C7 ────────────────────────────────────────────────────

theorem flushBuffer_nonempty (st : CollectorState) (hne : st.buffer ≠ []) :
    flushBuffer st
      = dispatchAll { st with flushDeadline := none, buffer := [] } st.buffer := by
  unfold flushBuffer
  rw [if_neg (by simp [List.isEmpty_iff, hne])]

theorem flushBuffer_empty (st : CollectorState) (hbe : st.buffer = []) :
    flushBuffer st
      = { st := { st with flushDeadline := none }, calls := [], emits := [] } := by
  unfold flushBuffer
  rw [if_pos (by simp [List.isEmpty_iff, hbe])]

theorem scheduleFlush_buffer (st : CollectorState) :
    (scheduleFlush st).buffer = st.buffer := by
  unfold scheduleFlush
  cases h : st.flushDeadline <;> rfl

theorem scheduleFlush_deadline (st : CollectorState) :
    (scheduleFlush st).flushDeadline
      = some (st.flushDeadline.getD (st.now + st.maxWait)) := by
  unfold scheduleFlush
  cases h : st.flushDeadline with
  | none => rfl
  | some d => rw [h]; rfl

theorem track_valid_flush (st : CollectorState) (entity action : String)
    (props : Properties)
    (hvalid : (validate st.validator (buildEvent st entity action props)).valid
      = true)
    (hsize : st.maxSize ≤ st.buffer.length + 1) :
    track st entity action props
      = { st := (dispatchAll
            { st with nextId := st.nextId + 1, buffer := [], flushDeadline := none }
            (st.buffer
              ++ [(validate st.validator (buildEvent st entity action props)).event])).st
          calls := (dispatchAll
            { st with nextId := st.nextId + 1, buffer := [], flushDeadline := none }
            (st.buffer
              ++ [(validate st.validator (buildEvent st entity action props)).event])).calls
          emits := [Emitted.eventEv (buildEvent st entity action props),
                    Emitted.eventValid (buildEvent st entity action props)]
            ++ (dispatchAll
              { st with nextId := st.nextId + 1, buffer := [], flushDeadline := none }
              (st.buffer
                ++ [(validate st.validator (buildEvent st entity action props)).event])).emits } := by
  unfold track
  dsimp only
  rw [if_pos hvalid, if_pos (by simpa using hsize),
    flushBuffer_nonempty _ (by simp)]

theorem track_valid_noflush (st : CollectorState) (entity action : String)
    (props : Properties)
    (hvalid : (validate st.validator (buildEvent st entity action props)).valid
      = true)
    (hsize : st.buffer.length + 1 < st.maxSize) :
    track st entity action props
      = { st := scheduleFlush { st with
              nextId := st.nextId + 1,
              buffer := st.buffer
                ++ [(validate st.validator (buildEvent st entity action props)).event] }
          calls := []
          emits := [Emitted.eventEv (buildEvent st entity action props),
                    Emitted.eventValid (buildEvent st entity action props)] } := by
  unfold track
  dsimp only
  have hcond : ¬ st.maxSize ≤ (st.buffer
      ++ [(validate st.validator (buildEvent st entity action props)).event]).length := by
    simp only [List.length_append, List.length_singleton]
    omega
  rw [if_pos hvalid, if_neg hcond]

/-- **C7.** With buffer config `maxSize`/`maxWait`: a `track()` call that
fills the buffer to `maxSize` dispatches synchronously within the same call
(buffer drained, timer cleared, every consent-allowed destination receives
its `transform` for the validated event); with fewer than `maxSize` events,
`track()` makes no destination call, appends to the buffer, and leaves the
deadline at the already-armed value — arming `now + maxWait` only when no
timer was armed (timer not reset by subsequent `track()` calls); dispatch
then happens when the runtime fires the armed timer callback, which drains
the buffer and delivers every buffered event to every consent-allowed
destination. -/
theorem claim_C7_buffer_flush (st : CollectorState) (entity action : String)
    (props : Properties)
    (hvalid : (validate st.validator (buildEvent st entity action props)).valid
      = true) :
    (st.maxSize ≤ st.buffer.length + 1 →
      (track st entity action props).st.buffer = []
      ∧ (track st entity action props).st.flushDeadline = none
      ∧ (∀ b ∈ st.destinations,
          isAllowed st.mgr.state (requiredConsentOf b) = true →
          DestCall.transformCall b.destination.name
              (validate st.validator (buildEvent st entity action props)).event
            ∈ (track st entity action props).calls))
    ∧ (st.buffer.length + 1 < st.maxSize →
      (track st entity action props).calls = []
      ∧ (track st entity action props).st.buffer
          = st.buffer
            ++ [(validate st.validator (buildEvent st entity action props)).event]
      ∧ (track st entity action props).st.flushDeadline
          = some (st.flushDeadline.getD (st.now + st.maxWait)))
    ∧ ((fireFlushTimer st).st.flushDeadline = none
      ∧ (fireFlushTimer st).st.buffer = []
      ∧ ∀ ev ∈ st.buffer, ∀ b ∈ st.destinations,
          isAllowed st.mgr.state (requiredConsentOf b) = true →
          DestCall.transformCall b.destination.name ev
            ∈ (fireFlushTimer st).calls) := by
  refine ⟨?_, ?_, ?_⟩
  · intro hsize
    rw [track_valid_flush st entity action props hvalid hsize]
    refine ⟨?_, ?_, ?_⟩
    · rw [dispatchAll_st_buffer]
    · rw [dispatchAll_st_flushDeadline]
    · intro b hb hallow
      rw [dispatchAll_calls]
      refine List.mem_flatMap.mpr
        ⟨(validate st.validator (buildEvent st entity action props)).event,
         List.mem_append.mpr (Or.inr (List.mem_singleton.mpr rfl)), ?_⟩
      exact List.mem_flatMap.mpr
        ⟨b, hb, dispatchEntry_transform_mem _ b _ hallow⟩
  · intro hsize
    rw [track_valid_noflush st entity action props hvalid hsize]
    refine ⟨rfl, ?_, ?_⟩
    · rw [scheduleFlush_buffer]
    · exact scheduleFlush_deadline _
  · unfold fireFlushTimer
    by_cases hbe : st.buffer = []
    · rw [flushBuffer_empty st hbe]
      refine ⟨rfl, hbe, ?_⟩
      intro ev hev
      rw [hbe] at hev
      exact absurd hev (List.not_mem_nil ev)
    · rw [flushBuffer_nonempty st hbe]
      refine ⟨?_, ?_, ?_⟩
      · rw [dispatchAll_st_flushDeadline]
      · rw [dispatchAll_st_buffer]
      · intro ev hev b hb hallow
        rw [dispatchAll_calls]
        exact List.mem_flatMap.mpr ⟨ev, hev, List.mem_flatMap.mpr
          ⟨b, hb, dispatchEntry_transform_mem _ b _ hallow⟩⟩

/-- Buffer `maxSize = 3` holding two events: the third `track` flushes. -/
def stC7a : CollectorState :=
  { baseState [⟨destGood, none⟩] [("analytics", true)] with
      maxSize := 3
      maxWait := 60000
      buffer := [sampleEvent "a" "1", sampleEvent "a" "2"] }

/-- Empty buffer, no timer armed, clock at 100. -/
def stC7b : CollectorState :=
  { baseState [⟨destGood, none⟩] [("analytics", true)] with
      maxSize := 3
      maxWait := 1000
      now := 100 }

/-- One buffered event with the timer already armed for 500. -/
def stC7d : CollectorState :=
  { stC7b with buffer := [sampleEvent "a" "1"], flushDeadline := some 500 }

/-- Witness for C7: size-triggered synchronous flush; no early dispatch and
`maxWait` arming on the first buffered event; no timer reset on a later
`track`; and dispatch of the buffered event when the timer callback fires. -/
theorem claim_C7_witness :
    (track stC7a "a" "3" []).st.buffer = []
    ∧ (track stC7a "a" "3" []).st.flushDeadline = none
    ∧ DestCall.transformCall "good-dest" (buildEvent stC7a "a" "3" [])
        ∈ (track stC7a "a" "3" []).calls
    ∧ (track stC7b "a" "1" []).calls = []
    ∧ (track stC7b "a" "1" []).st.flushDeadline = some 1100
    ∧ (track stC7d "a" "2" []).st.flushDeadline = some 500
    ∧ (fireFlushTimer stC7d).st.buffer = []
    ∧ DestCall.transformCall "good-dest" (sampleEvent "a" "1")
        ∈ (fireFlushTimer stC7d).calls := by
  have hA := (claim_C7_buffer_flush stC7a "a" "3" [] rfl).1 (by decide)
  have hB := (claim_C7_buffer_flush stC7b "a" "1" [] rfl).2.1 (by decide)
  have hD := (claim_C7_buffer_flush stC7d "a" "2" [] rfl).2.1 (by decide)
  have hC := (claim_C7_buffer_flush stC7d "a" "2" [] rfl).2.2
  refine ⟨hA.1, hA.2.1, ?_, hB.1, ?_, ?_, hC.2.1, ?_⟩
  · exact hA.2.2 ⟨destGood, none⟩ (List.mem_cons_self _ _) (by decide)
  · exact hB.2.2
  · exact hD.2.2
  · exact hC.2.2 (sampleEvent "a" "1") (List.mem_cons_self _ _)
      ⟨destGood, none⟩ (List.mem_cons_self _ _) (by decide)

end Junction
